import Mathlib

/-!
# Verification of the value-casting and sanitization library

Shallow embedding of the repository's three components (`Sanitizer`,
`Color`, `Cast`) over a model of JavaScript runtime values, together with
theorems settling the specification claims.

Modelling conventions:
* JavaScript numbers are modelled as `JSNum`: NaN, signed infinities, or a
  finite value carried as an exact rational.  The binary64 rounding of the
  host is not modelled; every concrete number appearing in the claims and
  in the functions under verification is an integer far below 2^53, where
  the model and the host agree exactly.
* Host primitives used by the source (`Number`, `String`, `parseInt`,
  `BigInt`, `trim`, `toLowerCase`, bitwise operators) are modelled after
  their ECMAScript definitions in the `JS` namespace.
* Runtime values are the tagged variant `JSValue` covering the shapes the
  source branches on: number, string, boolean, bigint, null, undefined,
  ordered sequence (Array), key-value mapping (plain object), and
  associative map (Map).
-/

set_option maxHeartbeats 1000000

/-- Model of a JavaScript number: NaN, a signed infinity (`inf true` is
`+Infinity`), or a finite value carried as an exact rational. -/
inductive JSNum where
  | nan : JSNum
  | inf : Bool → JSNum
  | finite : ℚ → JSNum
deriving DecidableEq

/-- `Number.isNaN` / `isNaN` on an already-converted number. -/
def JSNum.isNaN : JSNum → Bool
  | .nan => true
  | _ => false

/-- Model of a JavaScript runtime value, the dynamic shapes the source
branches on via `typeof`, `Array.isArray` and `instanceof Map`. -/
inductive JSValue where
  | num : JSNum → JSValue
  | str : String → JSValue
  | boolean : Bool → JSValue
  | bigintVal : ℤ → JSValue
  | null : JSValue
  | undefined : JSValue
  | array : List JSValue → JSValue
  | object : List (String × JSValue) → JSValue
  | assocMap : List (JSValue × JSValue) → JSValue

/-- JavaScript loose equality with null: `v == null`, true exactly for
`null` and `undefined`. -/
def JSValue.isNullish : JSValue → Bool
  | .null => true
  | .undefined => true
  | _ => false

namespace JS

/-- The ECMAScript WhiteSpace and LineTerminator code points recognised by
`String.prototype.trim` and by string-to-number conversion. -/
def isWhiteSpaceChar (c : Char) : Bool :=
  c.toNat == 9 || c.toNat == 10 || c.toNat == 11 || c.toNat == 12 ||
  c.toNat == 13 || c.toNat == 32 || c.toNat == 160 || c.toNat == 0x1680 ||
  (0x2000 ≤ c.toNat && c.toNat ≤ 0x200A) || c.toNat == 0x2028 ||
  c.toNat == 0x2029 || c.toNat == 0x202F || c.toNat == 0x205F ||
  c.toNat == 0x3000 || c.toNat == 0xFEFF

/-- Strip leading whitespace from a character list. -/
def trimLeftChars (cs : List Char) : List Char := cs.dropWhile isWhiteSpaceChar

/-- Strip leading and trailing whitespace from a character list. -/
def trimChars (cs : List Char) : List Char :=
  ((cs.dropWhile isWhiteSpaceChar).reverse.dropWhile isWhiteSpaceChar).reverse

/-- `String.prototype.trim`. -/
def trim (s : String) : String := String.mk (trimChars s.data)

/-- `String.prototype.toLowerCase` on one character.  The claims only
exercise ASCII data, where the host's Unicode simple case mapping and
this ASCII mapping agree. -/
def lowerChar (c : Char) : Char :=
  if 'A' ≤ c ∧ c ≤ 'Z' then Char.ofNat (c.toNat + 32) else c

/-- `String.prototype.toLowerCase`. -/
def toLowerStr (s : String) : String := String.mk (s.data.map lowerChar)

/-- JavaScript `<` on strings: lexicographic comparison by code unit
(equal to code-point order on the basic multilingual plane). -/
def ltChars : List Char → List Char → Bool
  | [], [] => false
  | [], _ :: _ => true
  | _ :: _, [] => false
  | a :: as, b :: bs =>
    if a.toNat < b.toNat then true
    else if b.toNat < a.toNat then false
    else ltChars as bs

/-- JavaScript `s < t` on strings. -/
def strLt (s t : String) : Bool := ltChars s.data t.data

/-- Value of a decimal digit character. -/
def decDigitVal (c : Char) : Option ℕ :=
  if '0' ≤ c ∧ c ≤ '9' then some (c.toNat - 48) else none

/-- Value of a hexadecimal digit character (both cases accepted). -/
def hexDigitVal (c : Char) : Option ℕ :=
  if '0' ≤ c ∧ c ≤ '9' then some (c.toNat - 48)
  else if 'a' ≤ c ∧ c ≤ 'f' then some (c.toNat - 87)
  else if 'A' ≤ c ∧ c ≤ 'F' then some (c.toNat - 55)
  else none

/-- Value of a binary digit character. -/
def binDigitVal (c : Char) : Option ℕ :=
  if c = '0' then some 0 else if c = '1' then some 1 else none

/-- Value of an octal digit character. -/
def octDigitVal (c : Char) : Option ℕ :=
  if '0' ≤ c ∧ c ≤ '7' then some (c.toNat - 48) else none

def isDecDigitChar (c : Char) : Bool := (decDigitVal c).isSome

def isHexDigitChar (c : Char) : Bool := (hexDigitVal c).isSome

/-- Accumulate a digit list (most significant first) in the given base. -/
def digitsToNat (base : ℕ) (ds : List ℕ) : ℕ :=
  ds.foldl (fun a d => base * a + d) 0

/-- Split off the maximal run of leading decimal digits. -/
def takeDigitsDec : List Char → List ℕ × List Char
  | [] => ([], [])
  | c :: rest =>
    match decDigitVal c with
    | some d =>
      let p := takeDigitsDec rest
      (d :: p.1, p.2)
    | none => ([], c :: rest)

/-- Read a whole character list as a nonempty run of decimal digits. -/
def readAllDigits (cs : List Char) : Option ℕ :=
  if cs.isEmpty then none
  else if cs.all isDecDigitChar then
    some (digitsToNat 10 (cs.filterMap decDigitVal))
  else none

/-- Read a whole character list as optionally signed decimal digits. -/
def readSignedDigits : List Char → Option ℤ
  | '+' :: rest => (readAllDigits rest).map (fun n => (n : ℤ))
  | '-' :: rest => (readAllDigits rest).map (fun n => -(n : ℤ))
  | cs => (readAllDigits cs).map (fun n => (n : ℤ))

/-- Read a whole character list as an ExponentPart: `e`/`E`, optional
sign, at least one digit. -/
def readExpPart : List Char → Option ℤ
  | 'e' :: rest => readSignedDigits rest
  | 'E' :: rest => readSignedDigits rest
  | _ => none

/-- Read a whole character list as an unsigned StrDecimalLiteral
(digits, optional fraction, optional exponent). -/
def readUnsignedDec (cs : List Char) : Option ℚ :=
  let p := takeDigitsDec cs
  let ip := p.1
  match p.2 with
  | '.' :: rest2 =>
    let pf := takeDigitsDec rest2
    let fp := pf.1
    if ip.isEmpty ∧ fp.isEmpty then none
    else
      let mant : ℚ :=
        (digitsToNat 10 ip : ℚ) + (digitsToNat 10 fp : ℚ) / ((10 : ℚ) ^ fp.length)
      match pf.2 with
      | [] => some mant
      | tail => (readExpPart tail).map (fun e => mant * (10 : ℚ) ^ e)
  | [] => if ip.isEmpty then none else some (digitsToNat 10 ip : ℚ)
  | tail =>
    if ip.isEmpty then none
    else (readExpPart tail).map (fun e => (digitsToNat 10 ip : ℚ) * (10 : ℚ) ^ e)

/-- Read a whole character list as a nonempty digit run in the given
base, using the given digit-value reader. -/
def readRadixAll (base : ℕ) (dv : Char → Option ℕ) (cs : List Char) : Option ℚ :=
  if cs.isEmpty then none
  else if cs.all (fun c => (dv c).isSome) then
    some ((digitsToNat base (cs.filterMap dv) : ℕ) : ℚ)
  else none

/-- The signed part of a StrNumericLiteral: `Infinity` or an unsigned
decimal literal, with the given sign applied. -/
def readSignedPart (pos : Bool) (cs : List Char) : JSNum :=
  if cs = "Infinity".data then .inf pos
  else
    match readUnsignedDec cs with
    | some q => .finite (if pos then q else -q)
    | none => .nan

/-- A whole (already trimmed, nonempty) character list as a
StrNumericLiteral: hex/binary/octal forms (unsigned only), or a signed
decimal literal / `Infinity`. -/
def readStrNumericLiteral (cs : List Char) : JSNum :=
  match cs with
  | '0' :: 'x' :: rest =>
    (match readRadixAll 16 hexDigitVal rest with | some q => .finite q | none => .nan)
  | '0' :: 'X' :: rest =>
    (match readRadixAll 16 hexDigitVal rest with | some q => .finite q | none => .nan)
  | '0' :: 'b' :: rest =>
    (match readRadixAll 2 binDigitVal rest with | some q => .finite q | none => .nan)
  | '0' :: 'B' :: rest =>
    (match readRadixAll 2 binDigitVal rest with | some q => .finite q | none => .nan)
  | '0' :: 'o' :: rest =>
    (match readRadixAll 8 octDigitVal rest with | some q => .finite q | none => .nan)
  | '0' :: 'O' :: rest =>
    (match readRadixAll 8 octDigitVal rest with | some q => .finite q | none => .nan)
  | '+' :: rest => readSignedPart true rest
  | '-' :: rest => readSignedPart false rest
  | _ => readSignedPart true cs

/-- ECMAScript StringToNumber: trim, empty becomes 0, otherwise the
numeric-literal grammar (unparsable input becomes NaN). -/
def stringToNumber (s : String) : JSNum :=
  let cs := trimChars s.data
  if cs.isEmpty then .finite 0 else readStrNumericLiteral cs

/-- Decimal digits of the fractional part of a rational in `[0,1)`,
up to the given number of places (the host prints the shortest base-2
round-trip form; on the integral values the claims touch the fractional
path is never taken). -/
def fracDigits : ℕ → ℚ → List Char
  | 0, _ => []
  | fuel + 1, q =>
    if q = 0 then []
    else
      let q10 := q * 10
      let d : ℤ := q10.floor
      Char.ofNat (48 + d.toNat) :: fracDigits fuel (q10 - (d : ℚ))

/-- ECMAScript Number-to-String (exact for NaN, infinities and integers;
fractional values are printed by decimal expansion). -/
def numToString (n : JSNum) : String :=
  match n with
  | .nan => "NaN"
  | .inf true => "Infinity"
  | .inf false => "-Infinity"
  | .finite q =>
    if q.den = 1 then toString q.num
    else
      let sign := if q < 0 then "-" else ""
      let aq : ℚ := |q|
      let ip : ℤ := aq.floor
      sign ++ toString ip ++ "." ++ String.mk (fracDigits 20 (aq - (ip : ℚ)))

mutual

/-- ECMAScript `String(value)`: identity on strings, number formatting,
`"true"`/`"false"`, `"null"`/`"undefined"`, array join by `','`
(Array.prototype.toString), and the default `Object.prototype.toString`
tags for plain objects and `Map` instances. -/
def jsToString : JSValue → String
  | .str s => s
  | .num n => numToString n
  | .boolean b => if b then "true" else "false"
  | .bigintVal i => toString i
  | .null => "null"
  | .undefined => "undefined"
  | .object _ => "[object Object]"
  | .assocMap _ => "[object Map]"
  | .array l => jsArrayJoin l

/-- `Array.prototype.join(',')`: null and undefined elements print as the
empty string, every other element via `String(element)`. -/
def jsArrayJoin : List JSValue → String
  | [] => ""
  | [v] =>
    (match v with
     | .null => ""
     | .undefined => ""
     | w => jsToString w)
  | v :: rest =>
    (match v with
     | .null => ""
     | .undefined => ""
     | w => jsToString w) ++ "," ++ jsArrayJoin rest

end

/-- ECMAScript `Number(value)`: numbers pass through, strings via
StringToNumber, booleans to 0/1, null to 0, undefined to NaN, bigints to
their numeric value, containers via ToPrimitive (which yields their
string form for arrays, plain objects and maps). -/
def jsToNumber : JSValue → JSNum
  | .num n => n
  | .str s => stringToNumber s
  | .boolean b => .finite (if b then 1 else 0)
  | .bigintVal i => .finite (i : ℚ)
  | .null => .finite 0
  | .undefined => .nan
  | .array l => stringToNumber (jsToString (.array l))
  | .object fs => stringToNumber (jsToString (.object fs))
  | .assocMap es => stringToNumber (jsToString (.assocMap es))

/-- Truncation toward zero of a rational (the ToIntegerOrInfinity step on
finite values). -/
def truncQ (q : ℚ) : ℤ := if q < 0 then -((-q).floor) else q.floor

/-- Reduce an integer into the signed 32-bit range (the wrap step of
ECMAScript ToInt32). -/
def wrap32 (t : ℤ) : ℤ :=
  let m := t % 4294967296
  if m < 2147483648 then m else m - 4294967296

/-- ECMAScript ToInt32: NaN and the infinities become 0, finite values
are truncated toward zero and wrapped into the signed 32-bit range. -/
def toInt32 : JSNum → ℤ
  | .nan => 0
  | .inf _ => 0
  | .finite q => wrap32 (truncQ q)

/-- The unsigned 32-bit representative of an integer. -/
def toUInt32Nat (x : ℤ) : ℕ := (x % 4294967296).toNat

/-- Reinterpret an unsigned 32-bit value as signed. -/
def sign32 (n : ℕ) : ℤ :=
  if n < 2147483648 then (n : ℤ) else (n : ℤ) - 4294967296

/-- The JavaScript bitwise AND of two (already integral) numbers. -/
def jsAnd (x y : ℤ) : ℤ := sign32 ((toUInt32Nat x) &&& (toUInt32Nat y))

/-- The JavaScript bitwise OR of two (already integral) numbers. -/
def jsOr (x y : ℤ) : ℤ := sign32 ((toUInt32Nat x) ||| (toUInt32Nat y))

/-- The JavaScript sign-propagating right shift `x >> n` of an (already
integral) number: ToInt32 then arithmetic shift, i.e. floor division by
a power of two. -/
def jsShr (x : ℤ) (n : ℕ) : ℤ := wrap32 x / 2 ^ n

/-- The JavaScript left shift `x << n` of an (already integral) number:
ToInt32, shift, wrap back into the signed 32-bit range. -/
def jsShl (x : ℤ) (n : ℕ) : ℤ := sign32 ((toUInt32Nat x * 2 ^ n) % 4294967296)

/-- `parseInt(s, 16)`: strip leading whitespace, read an optional sign,
strip an optional `0x`/`0X` indicator, then take the maximal run of hex
digits; NaN (modelled as `none`) when that run is empty.  The host
returns a binary64 value; the inputs reaching this model in the source
are at most six hex digits, where the host value is exact. -/
def parseIntHex (s : String) : Option ℤ :=
  let cs := trimLeftChars s.data
  let sign : ℤ := if cs.head? = some '-' then -1 else 1
  let cs := if cs.head? = some '-' ∨ cs.head? = some '+' then cs.tail else cs
  let cs :=
    if cs.head? = some '0' ∧ (cs.tail.head? = some 'x' ∨ cs.tail.head? = some 'X')
    then cs.tail.tail else cs
  let ds := cs.takeWhile isHexDigitChar
  if ds.isEmpty then none
  else some (sign * (digitsToNat 16 (ds.filterMap hexDigitVal) : ℤ))

/-- `parseInt(s, 10)`: strip leading whitespace, read an optional sign,
then take the maximal run of decimal digits; NaN (modelled as `none`)
when that run is empty. -/
def parseIntDec (s : String) : Option ℤ :=
  let cs := trimLeftChars s.data
  let sign : ℤ := if cs.head? = some '-' then -1 else 1
  let cs := if cs.head? = some '-' ∨ cs.head? = some '+' then cs.tail else cs
  let ds := cs.takeWhile isDecDigitChar
  if ds.isEmpty then none
  else some (sign * (digitsToNat 10 (ds.filterMap decDigitVal) : ℤ))

/-- ECMAScript StringToBigInt: trimmed empty string is 0; otherwise the
StringIntegerLiteral grammar — optionally signed decimal digits, or an
unsigned `0x`/`0b`/`0o` form.  No decimal point, no exponent, no
`Infinity`; anything else throws (modelled as `none`). -/
def stringToBigInt (s : String) : Option ℤ :=
  let cs := trimChars s.data
  if cs.isEmpty then some 0
  else
    match cs with
    | '0' :: 'x' :: rest =>
      (if rest.isEmpty ∨ ¬ rest.all isHexDigitChar then none
       else some ((digitsToNat 16 (rest.filterMap hexDigitVal) : ℕ) : ℤ))
    | '0' :: 'X' :: rest =>
      (if rest.isEmpty ∨ ¬ rest.all isHexDigitChar then none
       else some ((digitsToNat 16 (rest.filterMap hexDigitVal) : ℕ) : ℤ))
    | '0' :: 'b' :: rest =>
      (if rest.isEmpty ∨ ¬ rest.all (fun c => (binDigitVal c).isSome) then none
       else some ((digitsToNat 2 (rest.filterMap binDigitVal) : ℕ) : ℤ))
    | '0' :: 'B' :: rest =>
      (if rest.isEmpty ∨ ¬ rest.all (fun c => (binDigitVal c).isSome) then none
       else some ((digitsToNat 2 (rest.filterMap binDigitVal) : ℕ) : ℤ))
    | '0' :: 'o' :: rest =>
      (if rest.isEmpty ∨ ¬ rest.all (fun c => (octDigitVal c).isSome) then none
       else some ((digitsToNat 8 (rest.filterMap octDigitVal) : ℕ) : ℤ))
    | '0' :: 'O' :: rest =>
      (if rest.isEmpty ∨ ¬ rest.all (fun c => (octDigitVal c).isSome) then none
       else some ((digitsToNat 8 (rest.filterMap octDigitVal) : ℕ) : ℤ))
    | '+' :: rest => (readAllDigits rest).map (fun n => (n : ℤ))
    | '-' :: rest => (readAllDigits rest).map (fun n => -(n : ℤ))
    | other => (readAllDigits other).map (fun n => (n : ℤ))

/-- `Math.trunc` on an already-converted number. -/
def truncNum : JSNum → JSNum
  | .nan => .nan
  | .inf p => .inf p
  | .finite q => .finite ((truncQ q : ℤ) : ℚ)

/-- `BigInt(value)`: bigints pass through; integral finite numbers
convert, non-integral or non-finite numbers throw (RangeError); booleans
convert to 0/1; strings via StringToBigInt (SyntaxError modelled as
`none`); null and undefined throw (TypeError); containers go through
ToPrimitive, which stringifies them, and then StringToBigInt. -/
def bigIntFromValue : JSValue → Option ℤ
  | .bigintVal i => some i
  | .num (.finite q) => if q.den = 1 then some q.num else none
  | .num _ => none
  | .boolean b => some (if b then 1 else 0)
  | .str s => stringToBigInt s
  | .null => none
  | .undefined => none
  | .array l => stringToBigInt (jsArrayJoin l)
  | .object _ => stringToBigInt "[object Object]"
  | .assocMap _ => stringToBigInt "[object Map]"

end JS

open JS

/-- JavaScript subtraction on numbers. -/
def JSNum.sub : JSNum → JSNum → JSNum
  | .nan, _ => .nan
  | _, .nan => .nan
  | .inf p, .inf q => if p = q then .nan else .inf p
  | .inf p, .finite _ => .inf p
  | .finite _, .inf q => .inf !q
  | .finite a, .finite b => .finite (a - b)

/-- JavaScript remainder `a % b` on numbers: NaN when either operand is
NaN, when the dividend is infinite or when the divisor is zero; the
dividend when the divisor is infinite; otherwise the remainder with the
dividend's sign. -/
def JSNum.jsMod : JSNum → JSNum → JSNum
  | .nan, _ => .nan
  | _, .nan => .nan
  | .inf _, _ => .nan
  | .finite a, .inf _ => .finite a
  | .finite a, .finite b =>
    if b = 0 then .nan else .finite (a - b * (JS.truncQ (a / b) : ℚ))

namespace Color

/-- The RGB color record produced by the conversions.  Channels are
integers (every producer in the verified surface computes them by
bitwise masking); the optional alpha mirrors the optional `a` field. -/
structure RGBObject where
  r : ℤ
  g : ℤ
  b : ℤ
  a : Option ℤ := none
deriving DecidableEq

/-- Lowercase hexadecimal digit character, as produced by
`Number.prototype.toString(16)`. -/
def hexDigitChar (d : ℕ) : Char :=
  if d < 10 then Char.ofNat (48 + d) else Char.ofNat (87 + d)

/-- `Number.prototype.toString(16)` of a nonnegative integer: lowercase
hex digits, `"0"` for zero. -/
def natHexStr (n : ℕ) : String :=
  if n = 0 then "0" else String.mk ((Nat.digits 16 n).reverse.map hexDigitChar)

/-- `Number.prototype.toString(16)` of an integer (negative values print
with a leading minus sign). -/
def intHexStr (i : ℤ) : String :=
  if i < 0 then "-" ++ natHexStr (-i).toNat else natHexStr i.toNat

/-- `Color.decimalToHex`: wrap negatives by `0xFFFFFF + 1`, format in
base 16, left-pad with zeros from `'000000'.substr(0, 6 - hex.length)`
(empty when the hex form is longer than 6), and add a `'#'`.  The claims
exercise this on integer inputs, so the model takes an integer. -/
def decimalToHex (decimal : ℤ) : String :=
  let decimal := if decimal < 0 then decimal + 0xFFFFFF + 1 else decimal
  let hex := intHexStr decimal
  "#" ++ String.mk (List.replicate (6 - hex.length) '0') ++ hex

/-- `Color.decimalToRgb`: unpack bits [31:24] as alpha and [23:16],
[15:8], [7:0] as r, g, b via `>>`/`& 0xFF` (each shift performs ToInt32
on the operand); alpha 0 is replaced by 255. -/
def decimalToRgb (decimal : JSNum) : RGBObject :=
  let i := toInt32 decimal
  let a : ℤ := jsAnd (jsShr i 24) 255
  { r := jsAnd (jsShr i 16) 255
    g := jsAnd (jsShr i 8) 255
    b := jsAnd i 255
    a := some (if a > 0 then a else 255) }

/-- `Color.hexToRgb`: strip an optional leading `'#'`, parse with
`parseInt(hex, 16)` (NaN gives null), then unpack by string length:
6 digits as two per channel, 3 digits as one per channel with the nibble
duplicated, anything else null. -/
def hexToRgb (hex : String) : Option RGBObject :=
  let h := if hex.data.head? = some '#' then hex.drop 1 else hex
  match JS.parseIntHex h with
  | none => none
  | some parsed =>
    if h.length = 6 then
      some { r := jsAnd (jsShr parsed 16) 255
             g := jsAnd (jsShr parsed 8) 255
             b := jsAnd parsed 255
             a := none }
    else if h.length = 3 then
      let r := jsAnd (jsShr parsed 8) 15
      let g := jsAnd (jsShr parsed 4) 15
      let b := jsAnd parsed 15
      some { r := jsOr (jsShl r 4) r
             g := jsOr (jsShl g 4) g
             b := jsOr (jsShl b 4) b
             a := none }
    else none

/-- `Color.rgbToDecimal`: pack the three channels by shifts and
addition; alpha is ignored. -/
def rgbToDecimal (rgb : RGBObject) : ℤ :=
  jsShl rgb.r 16 + jsShl rgb.g 8 + rgb.b

/-- `Color.hexToDecimal`: compose `hexToRgb` and `rgbToDecimal`.  When
`hexToRgb` returns null the source dereferences null and throws
(flagged by the `@ts-expect-error` in the source); that failure is
modelled as `none`. -/
def hexToDecimal (hex : String) : Option ℤ :=
  (hexToRgb hex).map rgbToDecimal

end Color

namespace Cast

/-- `Cast.isNotActuallyZero`: false for non-strings; for a string, the
loop returns false as soon as a character has code 48 or 9 — the
characters `'0'` and tab — and true once the loop finishes. -/
def isNotActuallyZero : JSValue → Bool
  | .str s => s.data.all (fun c => !(c == '0' || c == '\t'))
  | _ => false

/-- `Cast.toNumber`: numbers pass through with NaN replaced by 0; every
other value is coerced with `Number()` and an unparsable result also
becomes 0. -/
def toNumber (value : JSValue) : JSNum :=
  match value with
  | .num n => if n.isNaN then .finite 0 else n
  | v =>
    let n := jsToNumber v
    if n.isNaN then .finite 0 else n

/-- `Cast.toString`: `String(value)`. -/
def toString (value : JSValue) : String := jsToString value

/-- `Cast.toRgbColorObject`: strings starting with `'#'` are parsed as
hex, falling back to opaque black when `hexToRgb` fails; every other
value is numerically coerced and unpacked as a decimal color. -/
def toRgbColorObject (value : JSValue) : Color.RGBObject :=
  match value with
  | .str s =>
    if s.data.head? = some '#' then
      match Color.hexToRgb s with
      | some color => color
      | none => { r := 0, g := 0, b := 0, a := some 255 }
    else Color.decimalToRgb (toNumber (.str s))
  | v => Color.decimalToRgb (toNumber v)

/-- `Cast.toRgbColorList`: the three channels of `toRgbColorObject`. -/
def toRgbColorList (value : JSValue) : List ℤ :=
  let color := toRgbColorObject value
  [color.r, color.g, color.b]

/-- `Cast.isWhiteSpace`: `val === null || (typeof val === 'string' &&
val.trim().length === 0)`.  Note the strict `=== null`: `undefined`
falls through to `false`. -/
def isWhiteSpace : JSValue → Bool
  | .null => true
  | .str s => (JS.trim s).length == 0
  | _ => false

/-- The string-comparison fallback inside `Cast.compare`: lowercase both
original values with `String(v).toLowerCase()` and compare
lexicographically. -/
def stringFallbackCompare (v1 v2 : JSValue) : JSNum :=
  let s1 := JS.toLowerStr (jsToString v1)
  let s2 := JS.toLowerStr (jsToString v2)
  if JS.strLt s1 s2 then .finite (-1)
  else if JS.strLt s2 s1 then .finite 1
  else .finite 0

/-- `Cast.compare`: numerically coerce both operands with `Number()`;
force the first (else the second) to NaN when it coerced to 0 but
`isNotActuallyZero` holds; fall back to case-insensitive string
comparison when either is NaN; treat equal-signed infinities as equal;
otherwise return the numeric difference. -/
def compare (v1 v2 : JSValue) : JSNum :=
  let m1 := jsToNumber v1
  let m2 := jsToNumber v2
  let p : JSNum × JSNum :=
    if m1 = .finite 0 ∧ isNotActuallyZero v1 = true then (.nan, m2)
    else if m2 = .finite 0 ∧ isNotActuallyZero v2 = true then (m1, .nan)
    else (m1, m2)
  let n1 := p.1
  let n2 := p.2
  if n1.isNaN || n2.isNaN then stringFallbackCompare v1 v2
  else if (n1 = .inf true ∧ n2 = .inf true) ∨ (n1 = .inf false ∧ n2 = .inf false) then
    .finite 0
  else n1.sub n2

/-- `Cast.isInt`: NaN counts as an integer; finite numbers are integers
when they equal their floor (the infinities satisfy
`val === Math.floor(val)` and also count); booleans always; strings
exactly when they contain no `'.'`; everything else is not. -/
def isInt : JSValue → Bool
  | .num .nan => true
  | .num (.inf _) => true
  | .num (.finite q) => q.den == 1
  | .boolean _ => true
  | .str s => !(s.data.contains '.')
  | _ => false

/-- `Cast.isBigInt`: bigints, or anything `isInt` accepts. -/
def isBigInt : JSValue → Bool
  | .bigintVal _ => true
  | v => isInt v

/-- `Cast.toBigInt`: bigints pass through; values whose `Number`
coercion is NaN become 0; values not accepted by `isBigInt` are
truncated with `Math.trunc`; finally `BigInt(value)` converts — and can
throw (modelled as `none`) on inputs such as exponent-notation strings
or infinities that slip past the guards. -/
def toBigInt (value : JSValue) : Option ℤ :=
  match value with
  | .bigintVal i => some i
  | v =>
    if (jsToNumber v).isNaN then some 0
    else
      let v := if !(isBigInt v) then JSValue.num (JS.truncNum (jsToNumber v)) else v
      JS.bigIntFromValue v

/-- The `string | number` argument type of `Cast.asNumberedItem`. -/
inductive NumOrStr where
  | n : JSNum → NumOrStr
  | s : String → NumOrStr

/-- JavaScript array indexing `l[idx]` with a number index: an element
for a nonnegative integral index within bounds, `undefined` (modelled as
`none`) otherwise. -/
def indexList (l : List String) (idx : JSNum) : Option String :=
  match idx with
  | .finite q => if q.den = 1 ∧ 0 ≤ q.num then l.get? q.num.toNat else none
  | _ => none

/-- `match[0]` of `value.match(/^\([0-9]+\) ?/)`: an opening paren, one
or more digits, a closing paren, and an optional single space. -/
def parenNumberMatch (s : String) : Option String :=
  match s.data with
  | '(' :: rest =>
    let ds := rest.takeWhile JS.isDecDigitChar
    if ds.isEmpty then none
    else
      match rest.drop ds.length with
      | ')' :: rest2 =>
        some (String.mk ('(' :: ds ++ [')'] ++ (if rest2.head? = some ' ' then [' '] else [])))
      | _ => none
  | _ => none

/-- `.slice(1, -1)`: drop the first and last characters. -/
def sliceInner (s : String) : String := String.mk ((s.data.drop 1).dropLast)

/-- `Cast.asNumberedItem`.  Numeric input: default the modulus count
from the valid-options length, wrap with `%` treating a falsy (0 or NaN)
result as 1, and — when valid options are supplied — index them with the
wrapped number, falling back to `"1"` on a null/absent slot.  String
input (lowercased): returned as-is unless it starts with `'('`; a
`(<digits>)` prefix is parsed with `parseInt`, wrapped only when `count`
is truthy, and validated by indexing the valid options with
`+value` — the numeric coercion of the whole string; otherwise
membership in the valid options is required. -/
def asNumberedItem (value : NumOrStr) (count : Option ℤ) (valid : Option (List String)) : String :=
  match value with
  | .n x =>
    let c : ℤ := count.getD (match valid with | some l => (l.length : ℤ) | none => 0)
    let m : ℤ := if 1 + c = 0 then 1 else 1 + c
    let v0 := JSNum.jsMod x (.finite (m : ℚ))
    let v := if v0 = .finite 0 ∨ v0.isNaN = true then JSNum.finite 1 else v0
    match valid with
    | none => JS.numToString v
    | some l =>
      match indexList l v with
      | none => "1"
      | some _ => JS.numToString v
  | .s strv =>
    let value := JS.toLowerStr (toString (.str strv))
    if ¬ (value.data.head? = some '(') then value
    else
      match parenNumberMatch value with
      | some m0 =>
        let v1 : ℤ := (JS.parseIntDec (sliceInner (JS.trim m0))).getD 0
        let v : JSNum :=
          if (match count with | some c => c != 0 | none => false) then
            let c := count.getD 0
            let m : ℤ := if 1 + c = 0 then 1 else 1 + c
            let r := JSNum.jsMod (.finite (v1 : ℚ)) (.finite (m : ℚ))
            if r = .finite 0 ∨ r.isNaN = true then .finite 1 else r
          else .finite (v1 : ℚ)
        (match valid with
         | none => JS.numToString v
         | some l =>
           match indexList l (JS.stringToNumber value) with
           | none => "1"
           | some _ => JS.numToString v)
      | none =>
        (match valid with
         | some l => if ¬ l.contains (JS.toLowerStr value) then "1" else value
         | none => value)

end Cast

namespace Sanitizer

mutual

/-- `Sanitizer.value`: null/undefined become the default (itself
defaulted to the empty string); non-containers pass through; arrays,
maps and plain objects are delegated.  The `nullAssign` parameter
defaults to true. -/
def value : JSValue → Option String → Option Bool → JSValue
  | v, dOpt, naOpt =>
    let d := dOpt.getD ""
    let na := naOpt.getD true
    match v with
    | .null => .str d
    | .undefined => .str d
    | .num n => .num n
    | .str s => .str s
    | .boolean b => .boolean b
    | .bigintVal i => .bigintVal i
    | .array l => .array (array l (some d) (some na))
    | .assocMap es => .assocMap (map es (some d) (some na))
    | .object fs => .object (object fs (some d) (some na))

/-- `Sanitizer.array` (`flatMap` over the elements): null/undefined
elements are omitted; nested arrays recurse (without forwarding
`nullAssign`); non-objects are kept; objects — including `Map`
instances, which reach `Sanitizer.object` where `Object.keys` sees no
own keys — go through object sanitization. -/
def array : List JSValue → Option String → Option Bool → List JSValue
  | [], _, _ => []
  | v :: rest, dOpt, naOpt =>
    (match v with
     | .null => []
     | .undefined => []
     | .array l => [JSValue.array (array l dOpt none)]
     | .num n => [JSValue.num n]
     | .str s => [JSValue.str s]
     | .boolean b => [JSValue.boolean b]
     | .bigintVal i => [JSValue.bigintVal i]
     | .object fs => [JSValue.object (object fs dOpt naOpt)]
     | .assocMap es =>
       [if naOpt.getD false then JSValue.object [] else JSValue.assocMap es]
    ) ++ array rest dOpt naOpt

/-- `Sanitizer.object`: every own key is kept and its value re-sanitized
via `Sanitizer.value` — without forwarding `nullAssign`.  Rehoming onto
a null-prototype object copies the same own keys and values, so both
branches of the final `if` produce the same field list in this model. -/
def object : List (String × JSValue) → Option String → Option Bool → List (String × JSValue)
  | [], _, _ => []
  | (k, v) :: rest, dOpt, naOpt => (k, value v dOpt none) :: object rest dOpt naOpt

/-- `Sanitizer.map`: entries with a null/undefined key are deleted;
every other value is re-sanitized via `Sanitizer.value` with
`nullAssign` forwarded. -/
def map : List (JSValue × JSValue) → Option String → Option Bool → List (JSValue × JSValue)
  | [], _, _ => []
  | (k, v) :: rest, dOpt, naOpt =>
    if k.isNullish then map rest dOpt naOpt
    else (k, value v dOpt naOpt) :: map rest dOpt naOpt

end

end Sanitizer

mutual

/-- Whether a null/undefined value is reachable anywhere in a value:
as the value itself, as a sequence element, as a mapping property value,
or as an associative-map key or value, at any depth. -/
def containsNullish : JSValue → Bool
  | .null => true
  | .undefined => true
  | .num _ => false
  | .str _ => false
  | .boolean _ => false
  | .bigintVal _ => false
  | .array l => anyNullishList l
  | .object fs => anyNullishFields fs
  | .assocMap es => anyNullishEntries es

def anyNullishList : List JSValue → Bool
  | [] => false
  | v :: rest => containsNullish v || anyNullishList rest

def anyNullishFields : List (String × JSValue) → Bool
  | [] => false
  | (_, v) :: rest => containsNullish v || anyNullishFields rest

def anyNullishEntries : List (JSValue × JSValue) → Bool
  | [] => false
  | (k, v) :: rest => containsNullish k || containsNullish v || anyNullishEntries rest

end

mutual

/-- The well-formedness condition of the amended C4: no associative map
occurs as a direct element of a sequence (such elements are routed to
object sanitization, which does not look at map entries), and every
non-null associative-map key is free of nested null/undefined values
(keys are kept verbatim, never sanitized). -/
def okValue : JSValue → Bool
  | .array l => okElems l
  | .object fs => okFields fs
  | .assocMap es => okEntries es
  | _ => true

def okElems : List JSValue → Bool
  | [] => true
  | v :: rest =>
    (match v with | .assocMap _ => false | _ => true) && okValue v && okElems rest

def okFields : List (String × JSValue) → Bool
  | [] => true
  | (_, v) :: rest => okValue v && okFields rest

def okEntries : List (JSValue × JSValue) → Bool
  | [] => true
  | (k, v) :: rest =>
    (k.isNullish || !containsNullish k) && okValue v && okEntries rest

end

/-! ## Helper lemmas about the modelled host primitives -/

theorem ratFloor_eq (q : ℚ) : q.floor = ⌊q⌋ := by
  rw [Rat.floor_def', Rat.floor_def]

theorem truncQ_intCast (n : ℤ) : JS.truncQ (n : ℚ) = n := by
  unfold JS.truncQ
  split
  · rw [show -((n : ℚ)) = ((-n : ℤ) : ℚ) by push_cast; ring, ratFloor_eq,
      Int.floor_intCast]
    omega
  · rw [ratFloor_eq, Int.floor_intCast]

theorem wrap32_eq {x : ℤ} (h0 : 0 ≤ x) (h1 : x < 2147483648) : JS.wrap32 x = x := by
  simp only [JS.wrap32]
  rw [Int.emod_eq_of_lt h0 (by omega)]
  simp [h1]

theorem toUInt32Nat_eq {x : ℤ} (h0 : 0 ≤ x) (h1 : x < 4294967296) :
    JS.toUInt32Nat x = x.toNat := by
  simp only [JS.toUInt32Nat]
  rw [Int.emod_eq_of_lt h0 h1]

theorem sign32_small {n : ℕ} (h : n < 2147483648) : JS.sign32 n = (n : ℤ) := by
  simp [JS.sign32, h]

theorem jsAnd_255 (x : ℤ) : JS.jsAnd x 255 = x % 256 := by
  simp only [JS.jsAnd]
  have h255 : JS.toUInt32Nat 255 = 255 := by rfl
  rw [h255]
  have hand : JS.toUInt32Nat x &&& 255 = JS.toUInt32Nat x % 256 := by
    have h := Nat.and_pow_two_sub_one_eq_mod (JS.toUInt32Nat x) 8
    norm_num at h
    exact h
  rw [hand, sign32_small (by omega)]
  simp only [JS.toUInt32Nat]
  have hnn : 0 ≤ x % 4294967296 := Int.emod_nonneg x (by norm_num)
  have hxt : ((x % 4294967296).toNat : ℤ) = x % 4294967296 :=
    Int.toNat_of_nonneg hnn
  push_cast [hxt]
  rw [Int.emod_emod_of_dvd x (by norm_num : (256 : ℤ) ∣ 4294967296)]

theorem jsAnd_15 (x : ℤ) : JS.jsAnd x 15 = x % 16 := by
  simp only [JS.jsAnd]
  have h15 : JS.toUInt32Nat 15 = 15 := by rfl
  rw [h15]
  have hand : JS.toUInt32Nat x &&& 15 = JS.toUInt32Nat x % 16 := by
    have h := Nat.and_pow_two_sub_one_eq_mod (JS.toUInt32Nat x) 4
    norm_num at h
    exact h
  rw [hand, sign32_small (by omega)]
  simp only [JS.toUInt32Nat]
  have hnn : 0 ≤ x % 4294967296 := Int.emod_nonneg x (by norm_num)
  have hxt : ((x % 4294967296).toNat : ℤ) = x % 4294967296 :=
    Int.toNat_of_nonneg hnn
  push_cast [hxt]
  rw [Int.emod_emod_of_dvd x (by norm_num : (16 : ℤ) ∣ 4294967296)]

theorem jsShl_eq {x : ℤ} (n : ℕ) (h0 : 0 ≤ x) (h1 : x * 2 ^ n < 2147483648) :
    JS.jsShl x n = x * 2 ^ n := by
  have h2 : (0 : ℤ) < 2 ^ n := by positivity
  have hx : x ≤ x * 2 ^ n := le_mul_of_one_le_right h0 (by omega)
  simp only [JS.jsShl]
  rw [toUInt32Nat_eq h0 (by omega)]
  have hxt : (x.toNat : ℤ) = x := Int.toNat_of_nonneg h0
  have hsm : x.toNat * 2 ^ n < 2147483648 := by
    have h : ((x.toNat * 2 ^ n : ℕ) : ℤ) < 2147483648 := by push_cast [hxt]; omega
    exact_mod_cast h
  have hmod : x.toNat * 2 ^ n % 4294967296 = x.toNat * 2 ^ n :=
    Nat.mod_eq_of_lt (by omega)
  rw [hmod, sign32_small hsm]
  push_cast [hxt]
  ring

theorem jsOr_bounds {x y : ℤ} (hx0 : 0 ≤ x) (hx1 : x ≤ 255) (hy0 : 0 ≤ y)
    (hy1 : y ≤ 255) : 0 ≤ JS.jsOr x y ∧ JS.jsOr x y ≤ 255 := by
  simp only [JS.jsOr]
  rw [toUInt32Nat_eq hx0 (by omega), toUInt32Nat_eq hy0 (by omega)]
  have hlt : x.toNat ||| y.toNat < 2 ^ 8 :=
    Nat.or_lt_two_pow (by omega) (by omega)
  norm_num at hlt
  rw [sign32_small (by omega)]
  omega

@[simp] theorem isNullish_num (n : JSNum) : (JSValue.num n).isNullish = false := rfl

@[simp] theorem isNullish_str (s : String) : (JSValue.str s).isNullish = false := rfl

@[simp] theorem isNullish_boolean (b : Bool) : (JSValue.boolean b).isNullish = false := rfl

@[simp] theorem isNullish_bigintVal (i : ℤ) : (JSValue.bigintVal i).isNullish = false := rfl

@[simp] theorem isNullish_null : JSValue.null.isNullish = true := rfl

@[simp] theorem isNullish_undefined : JSValue.undefined.isNullish = true := rfl

@[simp] theorem isNullish_array (l : List JSValue) : (JSValue.array l).isNullish = false := rfl

@[simp] theorem isNullish_object (fs : List (String × JSValue)) :
    (JSValue.object fs).isNullish = false := rfl

@[simp] theorem isNullish_assocMap (es : List (JSValue × JSValue)) :
    (JSValue.assocMap es).isNullish = false := rfl

/-! ## Claim C7 -/

/-- C7: for every RGB object with integer channels in `[0, 255]` (and any
alpha), `decimalToRgb (rgbToDecimal rgb)` returns the same three channels
with alpha 255: `rgbToDecimal` packs only 24 bits, so the unpacked alpha
is 0 and is replaced by 255. -/
theorem claim_C7 (r g b : ℤ) (a : Option ℤ)
    (hr0 : 0 ≤ r) (hr1 : r ≤ 255) (hg0 : 0 ≤ g) (hg1 : g ≤ 255)
    (hb0 : 0 ≤ b) (hb1 : b ≤ 255) :
    Color.decimalToRgb (.finite ((Color.rgbToDecimal ⟨r, g, b, a⟩ : ℤ) : ℚ)) =
      ⟨r, g, b, some 255⟩ := by
  have h16 : (2 : ℤ) ^ 16 = 65536 := by norm_num
  have h8 : (2 : ℤ) ^ 8 = 256 := by norm_num
  have h24 : (2 : ℤ) ^ 24 = 16777216 := by norm_num
  have hdec : Color.rgbToDecimal ⟨r, g, b, a⟩ = r * 65536 + g * 256 + b := by
    simp only [Color.rgbToDecimal]
    rw [jsShl_eq 16 hr0 (by rw [h16]; omega), jsShl_eq 8 hg0 (by rw [h8]; omega),
      h16, h8]
  rw [hdec]
  have hti : JS.toInt32 (.finite ((r * 65536 + g * 256 + b : ℤ) : ℚ)) =
      r * 65536 + g * 256 + b := by
    simp only [JS.toInt32]
    rw [truncQ_intCast]
    exact wrap32_eq (by omega) (by omega)
  simp only [Color.decimalToRgb]
  rw [hti]
  simp only [JS.jsShr]
  rw [wrap32_eq (by omega : (0:ℤ) ≤ r * 65536 + g * 256 + b) (by omega)]
  rw [jsAnd_255, jsAnd_255, jsAnd_255, jsAnd_255, h16, h8, h24]
  have ha : ((r * 65536 + g * 256 + b) / 16777216) % 256 = 0 := by omega
  rw [ha]
  norm_num
  refine ⟨by omega, by omega, by omega⟩

/-- Witness for C7 at the concrete triple (12, 34, 56). -/
theorem claim_C7_witness :
    Color.decimalToRgb (.finite ((Color.rgbToDecimal ⟨12, 34, 56, none⟩ : ℤ) : ℚ)) =
      ⟨12, 34, 56, some 255⟩ :=
  claim_C7 12 34 56 none (by norm_num) (by norm_num) (by norm_num) (by norm_num)
    (by norm_num) (by norm_num)

/-! ## Claim C10 -/

theorem decimalToRgb_bounds (d : JSNum) :
    (0 ≤ (Color.decimalToRgb d).r ∧ (Color.decimalToRgb d).r ≤ 255) ∧
    (0 ≤ (Color.decimalToRgb d).g ∧ (Color.decimalToRgb d).g ≤ 255) ∧
    (0 ≤ (Color.decimalToRgb d).b ∧ (Color.decimalToRgb d).b ≤ 255) := by
  simp only [Color.decimalToRgb]
  refine ⟨?_, ?_, ?_⟩ <;> rw [jsAnd_255] <;> omega

theorem hexToRgb_bounds {s : String} {c : Color.RGBObject}
    (h : Color.hexToRgb s = some c) :
    (0 ≤ c.r ∧ c.r ≤ 255) ∧ (0 ≤ c.g ∧ c.g ≤ 255) ∧ (0 ≤ c.b ∧ c.b ≤ 255) := by
  have hchan : ∀ x : ℤ,
      0 ≤ JS.jsOr (JS.jsShl (JS.jsAnd x 15) 4) (JS.jsAnd x 15) ∧
        JS.jsOr (JS.jsShl (JS.jsAnd x 15) 4) (JS.jsAnd x 15) ≤ 255 := by
    intro x
    have h0 : 0 ≤ JS.jsAnd x 15 := by rw [jsAnd_15]; omega
    have h1 : JS.jsAnd x 15 ≤ 15 := by rw [jsAnd_15]; omega
    have hp : (2 : ℤ) ^ 4 = 16 := by norm_num
    rw [jsShl_eq 4 h0 (by rw [hp]; omega), hp]
    exact jsOr_bounds (by omega) (by omega) h0 (by omega)
  simp only [Color.hexToRgb] at h
  generalize (if s.data.head? = some '#' then s.drop 1 else s) = t at h
  split at h
  · simp at h
  · split at h
    · injection h with h
      subst h
      refine ⟨?_, ?_, ?_⟩ <;> simp only [jsAnd_255] <;> omega
    · split at h
      · injection h with h
        subst h
        exact ⟨hchan _, hchan _, hchan _⟩
      · simp at h

theorem toRgbColorObject_bounds (v : JSValue) :
    (0 ≤ (Cast.toRgbColorObject v).r ∧ (Cast.toRgbColorObject v).r ≤ 255) ∧
    (0 ≤ (Cast.toRgbColorObject v).g ∧ (Cast.toRgbColorObject v).g ≤ 255) ∧
    (0 ≤ (Cast.toRgbColorObject v).b ∧ (Cast.toRgbColorObject v).b ≤ 255) := by
  cases v with
  | str s =>
    simp only [Cast.toRgbColorObject]
    split
    · cases hh : Color.hexToRgb s with
      | none => simp only [hh]; norm_num
      | some c => simp only [hh]; exact hexToRgb_bounds hh
    · exact decimalToRgb_bounds _
  | num n => exact decimalToRgb_bounds _
  | boolean b => exact decimalToRgb_bounds _
  | bigintVal i => exact decimalToRgb_bounds _
  | null => exact decimalToRgb_bounds _
  | undefined => exact decimalToRgb_bounds _
  | array l => exact decimalToRgb_bounds _
  | object fs => exact decimalToRgb_bounds _
  | assocMap es => exact decimalToRgb_bounds _

/-- C10: for every input value, `toRgbColorObject` yields integer
channels `r`, `g`, `b` each in `[0, 255]` (the hex path masks each
channel or falls back to opaque black; every other path unpacks the
numeric coercion through ToInt32 and 8-bit masks), and `toRgbColorList`
is exactly the three-element list of those channels. -/
theorem claim_C10 (v : JSValue) :
    (0 ≤ (Cast.toRgbColorObject v).r ∧ (Cast.toRgbColorObject v).r ≤ 255) ∧
    (0 ≤ (Cast.toRgbColorObject v).g ∧ (Cast.toRgbColorObject v).g ≤ 255) ∧
    (0 ≤ (Cast.toRgbColorObject v).b ∧ (Cast.toRgbColorObject v).b ≤ 255) ∧
    Cast.toRgbColorList v =
      [(Cast.toRgbColorObject v).r, (Cast.toRgbColorObject v).g,
        (Cast.toRgbColorObject v).b] := by
  obtain ⟨h1, h2, h3⟩ := toRgbColorObject_bounds v
  exact ⟨h1, h2, h3, rfl⟩

/-! ## Claim C5 -/

theorem sanitizer_array_drops_nullish (l : List JSValue) (d : Option String)
    (na : Option Bool) :
    ((Sanitizer.array l d na).all (fun v => !v.isNullish) = true) ∧
    (Sanitizer.array l d na).length = (l.filter (fun v => !v.isNullish)).length := by
  induction l with
  | nil => simp [Sanitizer.array]
  | cons v rest ih =>
    rw [Sanitizer.array.eq_def]
    cases v <;> simp_all [List.filter_cons]
    split <;> simp

/-- C5: sequence sanitization drops null/undefined elements entirely —
no null/undefined element appears in the output, whose length is the
number of non-nullish inputs — as in the concrete
`[1, null, 2, undefined] ↦ [1, 2]`; object sanitization keeps every key
in order and replaces each null/undefined value with the default, as in
`{a: null, b: 1} ↦ {a: "x", b: 1}`. -/
theorem claim_C5 :
    (∀ (l : List JSValue) (d : Option String) (na : Option Bool),
        ((Sanitizer.array l d na).all (fun v => !v.isNullish) = true) ∧
        (Sanitizer.array l d na).length =
          (l.filter (fun v => !v.isNullish)).length) ∧
    Sanitizer.array [.num (.finite 1), .null, .num (.finite 2), .undefined]
        (some "x") none = [.num (.finite 1), .num (.finite 2)] ∧
    (∀ (fs : List (String × JSValue)) (d : String) (na : Option Bool),
        List.Forall₂
          (fun p q => q.1 = p.1 ∧ (p.2.isNullish = true → q.2 = JSValue.str d))
          fs (Sanitizer.object fs (some d) na)) ∧
    Sanitizer.object [("a", .null), ("b", .num (.finite 1))] (some "x") none =
      [("a", .str "x"), ("b", .num (.finite 1))] := by
  refine ⟨sanitizer_array_drops_nullish, by rfl, ?_, by rfl⟩
  intro fs d na
  induction fs with
  | nil =>
    rw [Sanitizer.object.eq_def]
    exact List.Forall₂.nil
  | cons p rest ih =>
    obtain ⟨k, v⟩ := p
    rw [Sanitizer.object.eq_def]
    refine List.Forall₂.cons ⟨rfl, ?_⟩ ih
    intro hv
    cases v <;> simp_all [JSValue.isNullish, Sanitizer.value]

/-- Witness for C5's quantified components at concrete inputs. -/
theorem claim_C5_witness :
    (Sanitizer.array [JSValue.null, .num (.finite 3)] none none).length =
      ([JSValue.null, .num (.finite 3)].filter (fun v => !v.isNullish)).length ∧
    List.Forall₂
      (fun p q => q.1 = p.1 ∧ (p.2.isNullish = true → q.2 = JSValue.str "x"))
      [("a", JSValue.null)] (Sanitizer.object [("a", JSValue.null)] (some "x") none) :=
  ⟨(claim_C5.1 [JSValue.null, .num (.finite 3)] none none).2,
    claim_C5.2.2.1 [("a", JSValue.null)] "x" none⟩

/-! ## Claim C8 -/

/-- C8 counterexample: the claim includes `undefined` in the null/absent
sentinel, but the source tests `val === null` strictly, so
`isWhiteSpace(undefined)` is false, where the claim requires true. -/
theorem claim_C8_counterexample : Cast.isWhiteSpace JSValue.undefined = false := rfl

/-- C8 (amended): `isWhiteSpace` returns true exactly when the value is
`null` (not `undefined`) or a string that is empty after trimming
surrounding whitespace, and false for every other input. -/
theorem claim_C8 (v : JSValue) :
    Cast.isWhiteSpace v = true ↔
      v = JSValue.null ∨ ∃ s, v = JSValue.str s ∧ (JS.trim s).length = 0 := by
  cases v <;> simp [Cast.isWhiteSpace]

/-! ## Claim C3 -/

/-- C3: the claim says `toBigInt` is total (returns a bigint without
throwing for every input).  The code throws on exponent-notation strings
and on infinite numbers: `"5e1"` passes the NaN guard
(`Number("5e1") = 50`) and the `isBigInt` guard (no `'.'` character),
reaching `BigInt("5e1")`, which throws a SyntaxError (modelled as
`none`); `Infinity` satisfies `val === Math.floor(val)` inside `isInt`
and reaches `BigInt(Infinity)`, which throws a RangeError.  The guarded
paths the claim describes do hold: bigints pass through, NaN-coercing
values become 0, and fractional inputs are truncated toward zero. -/
theorem claim_C3 :
    Cast.toBigInt (.str "5e1") = none ∧
    Cast.toBigInt (.num (.inf true)) = none ∧
    Cast.toBigInt (.bigintVal 7) = some 7 ∧
    Cast.toBigInt (.str "abc") = some 0 ∧
    Cast.toBigInt (.str "5.5") = some 5 := by
  refine ⟨?_, ?_, ?_, ?_, ?_⟩ <;> with_unfolding_all rfl

/-! ## Claim C9 -/

/-- C9: for a `(<digits>)`-prefixed string with a valid-options list the
claim requires the wrapped number to be validated by its own slot; the
source instead indexes the options with `+value`, the numeric coercion
of the whole lowercased string, which is NaN, so the fallback `"1"` is
returned even though slot 2 holds the valid option `"c"`.  The numeric
path on the same data returns `"2"`, as the claim describes. -/
theorem claim_C9 :
    Cast.asNumberedItem (.s "(2)") (some 3) (some ["a", "b", "c", "d"]) = "1" ∧
    Cast.asNumberedItem (.n (.finite 2)) (some 3) (some ["a", "b", "c", "d"]) = "2" := by
  constructor <;> with_unfolding_all rfl

/-! ## Claim C1 -/

/-- C1 counterexample: the claim requires `compare("\t", 0)` to be
non-zero, but it returns 0: `isNotActuallyZero("\t")` is false because
the string contains a tab character, so the operand keeps its coerced
numeric value 0 and the numeric difference 0 - 0 is returned. -/
theorem claim_C1_counterexample :
    Cast.compare (.str "\t") (.num (.finite 0)) = JSNum.finite 0 := by
  with_unfolding_all rfl

/-- C1 (amended): `isNotActuallyZero` holds exactly for strings that
contain NO `'0'` and NO tab character, so only such operands (when they
numerically coerce to 0) are forced to the NaN sentinel and trigger the
case-insensitive string-comparison fallback.  A string containing `'0'`
or a tab keeps its numeric value: `compare("\t", 0) = 0`, while the
tab-free zero-string `""` falls back to string comparison and
`compare("", 0) = -1`. -/
theorem claim_C1 :
    (∀ (s : String) (v2 : JSValue), jsToNumber (.str s) = .finite 0 →
        (∀ c ∈ s.data, ¬(c = '0' ∨ c = '\t')) →
        Cast.compare (.str s) v2 = Cast.stringFallbackCompare (.str s) v2) ∧
    (∀ s : String, ('0' ∈ s.data ∨ '\t' ∈ s.data) →
        Cast.isNotActuallyZero (.str s) = false) ∧
    Cast.compare (.str "") (.num (.finite 0)) = JSNum.finite (-1) := by
  refine ⟨?_, ?_, by with_unfolding_all rfl⟩
  · intro s v2 h0 hc
    have hz : Cast.isNotActuallyZero (.str s) = true := by
      simp only [Cast.isNotActuallyZero, List.all_eq_true]
      intro c hcmem
      have h := hc c hcmem
      push_neg at h
      simp [h.1, h.2]
    simp [Cast.compare, h0, hz, JSNum.isNaN]
  · intro s h
    simp only [Cast.isNotActuallyZero, List.all_eq_false]
    cases h with
    | inl h => exact ⟨'0', h, by simp⟩
    | inr h => exact ⟨'\t', h, by simp⟩

/-- Witness for C1's quantified fallback component at the empty
string. -/
theorem claim_C1_witness :
    Cast.compare (.str "") (.num (.finite 0)) =
      Cast.stringFallbackCompare (.str "") (.num (.finite 0)) :=
  claim_C1.1 "" (.num (.finite 0)) (by rfl) (by simp)

/-! ## Claim C2 -/

/-- C2 counterexample: `"12G456"` contains the non-hex character `'G'`
(for which the claim requires a null result) yet yields an RGB object:
`parseInt("12G456", 16)` parses the `"12"` prefix as 18, the length is
6, so the channels are unpacked from 18. -/
theorem claim_C2_counterexample :
    Color.hexToRgb "12G456" = some { r := 0, g := 0, b := 18, a := none } := rfl

/-- C2 (amended): `hexToRgb` returns null exactly when
`parseInt(hex, 16)` finds no leading hexadecimal number (after optional
whitespace, sign and `0x` indicator) or the `'#'`-stripped string's
length is neither 6 nor 3.  Well-formed inputs behave as the claim
describes — `"F00"` duplicates each nibble, `"GGG"` (no hex digit) and
`"12"` (bad length) fail — but a 6- or 3-character string with a
parsable hex prefix and a non-hex tail also yields an object. -/
theorem claim_C2 :
    (∀ s : String,
        Color.hexToRgb s = none ↔
          JS.parseIntHex (if s.data.head? = some '#' then s.drop 1 else s) = none ∨
          ((if s.data.head? = some '#' then s.drop 1 else s).length ≠ 6 ∧
            (if s.data.head? = some '#' then s.drop 1 else s).length ≠ 3)) ∧
    Color.hexToRgb "F00" = some { r := 255, g := 0, b := 0, a := none } ∧
    Color.hexToRgb "GGG" = none ∧
    Color.hexToRgb "12" = none := by
  refine ⟨?_, by rfl, by rfl, by rfl⟩
  intro s
  simp only [Color.hexToRgb]
  generalize (if s.data.head? = some '#' then s.drop 1 else s) = t
  cases hpe : JS.parseIntHex t with
  | none => simp
  | some parsed =>
    split_ifs with h6 h3 <;> simp_all

/-! ## Claim C6 -/

theorem hexDigitChar_spec : ∀ d : ℕ, d < 16 →
    JS.hexDigitVal (Color.hexDigitChar d) = some d ∧
    JS.isHexDigitChar (Color.hexDigitChar d) = true ∧
    JS.isWhiteSpaceChar (Color.hexDigitChar d) = false ∧
    Color.hexDigitChar d ≠ '-' ∧ Color.hexDigitChar d ≠ '+' ∧
    Color.hexDigitChar d ≠ 'x' ∧ Color.hexDigitChar d ≠ 'X' := by decide

theorem zeroChar_spec :
    JS.hexDigitVal '0' = some 0 ∧ JS.isHexDigitChar '0' = true ∧
    JS.isWhiteSpaceChar '0' = false ∧ ('0' : Char) ≠ '-' ∧ ('0' : Char) ≠ '+' ∧
    ('0' : Char) ≠ 'x' ∧ ('0' : Char) ≠ 'X' := by decide

theorem digitsToNat_replicate_zero_append (b k : ℕ) (ds : List ℕ) :
    JS.digitsToNat b (List.replicate k 0 ++ ds) = JS.digitsToNat b ds := by
  simp only [JS.digitsToNat, List.foldl_append]
  congr 1
  induction k with
  | zero => rfl
  | succ k ih =>
    rw [List.replicate_succ, List.foldl_cons]
    simpa using ih

theorem digitsToNat_reverse (b : ℕ) (ds : List ℕ) :
    JS.digitsToNat b ds.reverse = Nat.ofDigits b ds := by
  induction ds with
  | nil => rfl
  | cons d t ih =>
    rw [List.reverse_cons]
    simp only [JS.digitsToNat, List.foldl_append, List.foldl_cons, List.foldl_nil] at *
    rw [ih, Nat.ofDigits_cons]
    ring

theorem filterMap_hexDigitChar (l : List ℕ) (hl : ∀ d ∈ l, d < 16) :
    (l.map Color.hexDigitChar).filterMap JS.hexDigitVal = l := by
  induction l with
  | nil => rfl
  | cons d t ih =>
    rw [List.map_cons, List.filterMap_cons,
      (hexDigitChar_spec d (hl d (by simp))).1]
    rw [ih (fun e he => hl e (by simp [he]))]

theorem filterMap_replicate_zero (k : ℕ) :
    (List.replicate k '0').filterMap JS.hexDigitVal = List.replicate k 0 := by
  induction k with
  | zero => rfl
  | succ k ih =>
    rw [List.replicate_succ, List.filterMap_cons, zeroChar_spec.1,
      List.replicate_succ, ih]

theorem parseIntHex_all_hexDigits (s : String) (hne : s.data ≠ [])
    (hP : ∀ c ∈ s.data, JS.isHexDigitChar c = true ∧
      JS.isWhiteSpaceChar c = false ∧ c ≠ '-' ∧ c ≠ '+' ∧ c ≠ 'x' ∧ c ≠ 'X') :
    JS.parseIntHex s =
      some ((JS.digitsToNat 16 (s.data.filterMap JS.hexDigitVal) : ℕ) : ℤ) := by
  obtain ⟨c0, rest, hcs⟩ : ∃ c0 rest, s.data = c0 :: rest := by
    cases hh : s.data with
    | nil => exact absurd hh hne
    | cons a t => exact ⟨a, t, rfl⟩
  have hc0 := hP c0 (by rw [hcs]; exact List.mem_cons_self c0 rest)
  have htrim : JS.trimLeftChars s.data = c0 :: rest := by
    rw [hcs]
    simp only [JS.trimLeftChars, List.dropWhile_cons, hc0.2.1]
    simp
  have hnosign : ¬((c0 :: rest).head? = some '-' ∨ (c0 :: rest).head? = some '+') := by
    simp only [List.head?_cons, Option.some.injEq]
    push_neg
    exact ⟨hc0.2.2.1, hc0.2.2.2.1⟩
  have hno0x : ¬((c0 :: rest).head? = some '0' ∧
      ((c0 :: rest).tail.head? = some 'x' ∨ (c0 :: rest).tail.head? = some 'X')) := by
    rintro ⟨-, hx⟩
    cases rest with
    | nil => simp at hx
    | cons c1 t =>
      have hc1 := hP c1 (by rw [hcs]; simp)
      simp only [List.tail_cons, List.head?_cons, Option.some.injEq] at hx
      rcases hx with hx | hx
      · exact hc1.2.2.2.2.1 hx
      · exact hc1.2.2.2.2.2 hx
  have htake : (c0 :: rest).takeWhile JS.isHexDigitChar = c0 :: rest := by
    apply List.takeWhile_eq_self_iff.mpr
    intro c hcmem
    exact (hP c (by rw [hcs]; exact hcmem)).1
  simp only [JS.parseIntHex, htrim, if_neg hnosign, if_neg hno0x, htake]
  have hd : ¬(c0 :: rest).isEmpty := by simp
  simp only [List.isEmpty_cons, Bool.false_eq_true, if_false]
  have hsign : (if (c0 :: rest).head? = some '-' then (-1 : ℤ) else 1) = 1 := by
    simp only [List.head?_cons, Option.some.injEq]
    simp [hc0.2.2.1]
  rw [hsign, hcs]
  ring_nf

/-- C6: for every integer `D` in `[0, 0xFFFFFF]`,
`hexToDecimal (decimalToHex D) = D`: `decimalToHex` produces a
`'#'`-prefixed, zero-padded 6-hex-digit string, which `hexToRgb` parses
back to `D` and unpacks into channels that `rgbToDecimal` repacks to
`D`. -/
theorem claim_C6 (D : ℤ) (h0 : 0 ≤ D) (h1 : D ≤ 16777215) :
    Color.hexToDecimal (Color.decimalToHex D) = some D := by
  by_cases hD0 : D = 0
  · subst hD0
    with_unfolding_all rfl
  have hn0 : D.toNat ≠ 0 := by omega
  have hnD : (D.toNat : ℤ) = D := Int.toNat_of_nonneg h0
  have hdigs_lt : ∀ d ∈ Nat.digits 16 D.toNat, d < 16 := fun d hd =>
    Nat.digits_lt_base (by norm_num) hd
  have hchars : (Color.natHexStr D.toNat).data =
      (Nat.digits 16 D.toNat).reverse.map Color.hexDigitChar := by
    simp [Color.natHexStr, hn0]
  have hlen_digits : (Nat.digits 16 D.toNat).length ≤ 6 := by
    by_contra hcon
    push_neg at hcon
    have hle := Nat.base_pow_length_digits_le 16 D.toNat (by norm_num) hn0
    have h7 : (16 : ℕ) ^ 7 ≤ 16 ^ (Nat.digits 16 D.toNat).length :=
      Nat.pow_le_pow_right (by norm_num) hcon
    norm_num at h7
    omega
  have hlen : (Color.natHexStr D.toNat).length = (Nat.digits 16 D.toNat).length := by
    rw [show (Color.natHexStr D.toNat).length = (Color.natHexStr D.toNat).data.length
      from rfl, hchars]
    simp
  have hdata : (Color.decimalToHex D).data =
      '#' :: (List.replicate (6 - (Color.natHexStr D.toNat).length) '0' ++
        (Color.natHexStr D.toNat).data) := by
    have hDnn : ¬D < 0 := by omega
    simp only [Color.decimalToHex, Color.intHexStr, if_neg hDnn]
    simp [String.data_append]
  have hdrop : ((Color.decimalToHex D).drop 1).data =
      List.replicate (6 - (Color.natHexStr D.toNat).length) '0' ++
        (Color.natHexStr D.toNat).data := by
    rw [String.data_drop, hdata]
    simp
  -- every character of the stripped string is a hex digit with the
  -- side conditions needed by the parse lemma
  have hP : ∀ c ∈ ((Color.decimalToHex D).drop 1).data,
      JS.isHexDigitChar c = true ∧ JS.isWhiteSpaceChar c = false ∧
      c ≠ '-' ∧ c ≠ '+' ∧ c ≠ 'x' ∧ c ≠ 'X' := by
    intro c hc
    rw [hdrop] at hc
    rcases List.mem_append.mp hc with hc | hc
    · have : c = '0' := by
        have := List.eq_of_mem_replicate hc
        exact this
      subst this
      exact ⟨zeroChar_spec.2.1, zeroChar_spec.2.2.1, zeroChar_spec.2.2.2.1,
        zeroChar_spec.2.2.2.2.1, zeroChar_spec.2.2.2.2.2.1,
        zeroChar_spec.2.2.2.2.2.2⟩
    · rw [hchars] at hc
      obtain ⟨d, hd, rfl⟩ := List.mem_map.mp hc
      have hd16 : d < 16 := hdigs_lt d (List.mem_reverse.mp hd)
      have hspec := hexDigitChar_spec d hd16
      exact ⟨hspec.2.1, hspec.2.2.1, hspec.2.2.2.1, hspec.2.2.2.2.1,
        hspec.2.2.2.2.2.1, hspec.2.2.2.2.2.2⟩
  have hne : ((Color.decimalToHex D).drop 1).data ≠ [] := by
    rw [hdrop, hchars]
    have : Nat.digits 16 D.toNat ≠ [] := Nat.digits_ne_nil_iff_ne_zero.mpr hn0
    simp [this]
  have hval : JS.digitsToNat 16
      (((Color.decimalToHex D).drop 1).data.filterMap JS.hexDigitVal) = D.toNat := by
    rw [hdrop, List.filterMap_append, filterMap_replicate_zero, hchars,
      filterMap_hexDigitChar _ (fun d hd => hdigs_lt d (List.mem_reverse.mp hd)),
      digitsToNat_replicate_zero_append, digitsToNat_reverse, Nat.ofDigits_digits]
  have hparse : JS.parseIntHex ((Color.decimalToHex D).drop 1) = some D := by
    rw [parseIntHex_all_hexDigits _ hne hP, hval, hnD]
  have hlen6 : ((Color.decimalToHex D).drop 1).length = 6 := by
    rw [show ((Color.decimalToHex D).drop 1).length =
      ((Color.decimalToHex D).drop 1).data.length from rfl, hdrop]
    simp only [List.length_append, List.length_replicate]
    rw [show (Color.natHexStr D.toNat).data.length =
      (Color.natHexStr D.toNat).length from rfl]
    omega
  have hhead : (Color.decimalToHex D).data.head? = some '#' := by
    rw [hdata]
    rfl
  -- unpack hexToRgb on the 6-character string
  have hrgb : Color.hexToRgb (Color.decimalToHex D) =
      some { r := JS.jsAnd (JS.jsShr D 16) 255, g := JS.jsAnd (JS.jsShr D 8) 255,
             b := JS.jsAnd D 255, a := none } := by
    simp only [Color.hexToRgb, hhead, if_true, hparse, hlen6]
  simp only [Color.hexToDecimal, hrgb, Option.map_some']
  -- repack the channels
  have hw : JS.wrap32 D = D := wrap32_eq h0 (by omega)
  have hr : JS.jsAnd (JS.jsShr D 16) 255 = D / 65536 % 256 := by
    simp only [JS.jsShr, hw, jsAnd_255]
    norm_num
  have hg : JS.jsAnd (JS.jsShr D 8) 255 = D / 256 % 256 := by
    simp only [JS.jsShr, hw, jsAnd_255]
    norm_num
  have hb : JS.jsAnd D 255 = D % 256 := jsAnd_255 D
  simp only [Color.rgbToDecimal, hr, hg, hb]
  have hr' : 0 ≤ D / 65536 % 256 ∧ D / 65536 % 256 ≤ 255 := by omega
  have hg' : 0 ≤ D / 256 % 256 ∧ D / 256 % 256 ≤ 255 := by omega
  rw [jsShl_eq 16 hr'.1 (by norm_num; omega), jsShl_eq 8 hg'.1 (by norm_num; omega)]
  norm_num
  omega

/-- Witness for C6 at `D = 11259375` (`0xABCDEF`). -/
theorem claim_C6_witness :
    Color.hexToDecimal (Color.decimalToHex 11259375) = some 11259375 :=
  claim_C6 11259375 (by norm_num) (by norm_num)

/-! ## Claim C4 -/

theorem anyNullishList_append (xs ys : List JSValue) :
    anyNullishList (xs ++ ys) = (anyNullishList xs || anyNullishList ys) := by
  induction xs with
  | nil => simp [anyNullishList]
  | cons v rest ih =>
    simp [anyNullishList, ih, Bool.or_assoc]

mutual

theorem sValue_ok (v : JSValue) (dOpt : Option String) (naOpt : Option Bool)
    (hok : okValue v = true) :
    containsNullish (Sanitizer.value v dOpt naOpt) = false := by
  cases v with
  | num n => simp [Sanitizer.value, containsNullish]
  | str s => simp [Sanitizer.value, containsNullish]
  | boolean b => simp [Sanitizer.value, containsNullish]
  | bigintVal i => simp [Sanitizer.value, containsNullish]
  | null => simp [Sanitizer.value, containsNullish]
  | undefined => simp [Sanitizer.value, containsNullish]
  | array l =>
    have hok' : okElems l = true := by simpa [okValue] using hok
    simp only [Sanitizer.value, containsNullish]
    exact sArray_ok l (some (dOpt.getD "")) (some (naOpt.getD true)) hok'
  | object fs =>
    have hok' : okFields fs = true := by simpa [okValue] using hok
    simp only [Sanitizer.value, containsNullish]
    exact sObject_ok fs (some (dOpt.getD "")) (some (naOpt.getD true)) hok'
  | assocMap es =>
    have hok' : okEntries es = true := by simpa [okValue] using hok
    simp only [Sanitizer.value, containsNullish]
    exact sMap_ok es (some (dOpt.getD "")) (some (naOpt.getD true)) hok'

theorem sArray_ok (l : List JSValue) (dOpt : Option String) (naOpt : Option Bool)
    (hok : okElems l = true) :
    anyNullishList (Sanitizer.array l dOpt naOpt) = false := by
  cases l with
  | nil => simp [Sanitizer.array, anyNullishList]
  | cons v rest =>
    cases v with
    | assocMap es => simp [okElems] at hok
    | null =>
      simp only [okElems, Bool.true_and, Bool.and_eq_true] at hok
      have htail := sArray_ok rest dOpt naOpt hok.2
      simp [Sanitizer.array, htail]
    | undefined =>
      simp only [okElems, Bool.true_and, Bool.and_eq_true] at hok
      have htail := sArray_ok rest dOpt naOpt hok.2
      simp [Sanitizer.array, htail]
    | num n =>
      simp only [okElems, Bool.true_and, Bool.and_eq_true] at hok
      have htail := sArray_ok rest dOpt naOpt hok.2
      simp [Sanitizer.array, anyNullishList, containsNullish, htail]
    | str s =>
      simp only [okElems, Bool.true_and, Bool.and_eq_true] at hok
      have htail := sArray_ok rest dOpt naOpt hok.2
      simp [Sanitizer.array, anyNullishList, containsNullish, htail]
    | boolean b =>
      simp only [okElems, Bool.true_and, Bool.and_eq_true] at hok
      have htail := sArray_ok rest dOpt naOpt hok.2
      simp [Sanitizer.array, anyNullishList, containsNullish, htail]
    | bigintVal i =>
      simp only [okElems, Bool.true_and, Bool.and_eq_true] at hok
      have htail := sArray_ok rest dOpt naOpt hok.2
      simp [Sanitizer.array, anyNullishList, containsNullish, htail]
    | array l2 =>
      simp only [okElems, Bool.true_and, Bool.and_eq_true] at hok
      have hin : okElems l2 = true := by simpa [okValue] using hok.1
      have htail := sArray_ok rest dOpt naOpt hok.2
      have hsub := sArray_ok l2 dOpt none hin
      simp [Sanitizer.array, anyNullishList, containsNullish, htail, hsub]
    | object fs =>
      simp only [okElems, Bool.true_and, Bool.and_eq_true] at hok
      have hin : okFields fs = true := by simpa [okValue] using hok.1
      have htail := sArray_ok rest dOpt naOpt hok.2
      have hsub := sObject_ok fs dOpt naOpt hin
      simp [Sanitizer.array, anyNullishList, containsNullish, htail, hsub]

theorem sObject_ok (fs : List (String × JSValue)) (dOpt : Option String)
    (naOpt : Option Bool) (hok : okFields fs = true) :
    anyNullishFields (Sanitizer.object fs dOpt naOpt) = false := by
  cases fs with
  | nil => simp [Sanitizer.object, anyNullishFields]
  | cons p rest =>
    obtain ⟨k, v⟩ := p
    have h1 : okValue v = true ∧ okFields rest = true := by
      simpa [okFields, Bool.and_eq_true] using hok
    simp only [Sanitizer.object, anyNullishFields]
    rw [sValue_ok v dOpt none h1.1, sObject_ok rest dOpt naOpt h1.2]
    rfl

theorem sMap_ok (es : List (JSValue × JSValue)) (dOpt : Option String)
    (naOpt : Option Bool) (hok : okEntries es = true) :
    anyNullishEntries (Sanitizer.map es dOpt naOpt) = false := by
  cases es with
  | nil => simp [Sanitizer.map, anyNullishEntries]
  | cons p rest =>
    obtain ⟨k, v⟩ := p
    have h1 : (k.isNullish || !containsNullish k) = true ∧ okValue v = true ∧
        okEntries rest = true := by
      simpa [okEntries, Bool.and_eq_true, and_assoc] using hok
    have htail := sMap_ok rest dOpt naOpt h1.2.2
    simp only [Sanitizer.map]
    by_cases hk : k.isNullish = true
    · rw [if_pos hk]
      exact htail
    · rw [if_neg hk]
      simp only [anyNullishEntries]
      have hck : containsNullish k = false := by
        rcases Bool.or_eq_true_iff.mp h1.1 with h | h
        · exact absurd h hk
        · simpa using h
      rw [hck, sValue_ok v dOpt naOpt h1.2.1, htail]
      rfl

end

/-- C4 counterexample: for the input `[[Map{"k" → null}]]` — an
associative map nested two sequences deep — the default `Sanitizer.value`
call leaves the null reachable: the inner array call drops the
`nullAssign` argument, so the map element is routed to `Sanitizer.object`
with a falsy `nullAssign`, which sees no own keys on a `Map` and returns
it unchanged, entries untouched. -/
theorem claim_C4_counterexample :
    containsNullish
      (Sanitizer.value
        (.array [.array [.assocMap [(.str "k", JSValue.null)]]]) none none) = true := rfl

/-- C4 (amended): for every finite, acyclic input in which no
associative map occurs as a direct element of a sequence and every
non-null associative-map key contains no nested null/undefined value
(condition `okValue`), the result of `Sanitizer.value` — for any default
and any `rehomeMapping` argument — has no null/undefined value reachable
anywhere: not as a sequence element, not as a mapping property value, and
not as an associative-map key or value, at any depth. -/
theorem claim_C4 (v : JSValue) (dOpt : Option String) (naOpt : Option Bool)
    (hok : okValue v = true) :
    containsNullish (Sanitizer.value v dOpt naOpt) = false :=
  sValue_ok v dOpt naOpt hok

/-- Witness for C4 at a concrete nested input. -/
theorem claim_C4_witness :
    containsNullish
      (Sanitizer.value
        (.object [("a", JSValue.null),
                  ("b", .array [JSValue.null, .num (.finite 1)]),
                  ("c", .assocMap [(.str "k", JSValue.undefined)])]) none none) = false :=
  claim_C4 _ none none (by rfl)
